import Mathlib

/-!
Verification of the local content-addressed byte store
(`src/rust/engine/fs/src/store.rs`): `Digest`, the two-namespace LMDB-backed
`local::ByteStore`, and the `Store` facade.

Bytes are modelled as `List Nat` (each element a byte value), LMDB databases as
functions `Fingerprint → Option Bytes` updated functionally, and futures as the
already-resolved values they carry (every operation here is a single
synchronous unit of work submitted to the pool).
-/

/-- A byte string: each element is one byte value (0..255). -/
abbrev Bytes := List Nat

/-- A `Fingerprint` (`hash::Fingerprint`): a 32-byte SHA-256 value, modelled as
its list of byte values. -/
abbrev Fingerprint := List Nat

namespace Sha256

/-! Modelled from the spec: the store fingerprints content with SHA-256
(the `sha2` crate used by `local::ByteStore::store_bytes` is outside this
repository). This is standard FIPS 180-4 SHA-256 over byte strings, with
32-bit words represented as `Nat` reduced mod 2^32. -/

def mask32 : Nat := 4294967295

def add32 (a b : Nat) : Nat := (a + b) % 4294967296

def rotr (n x : Nat) : Nat := ((x >>> n) ||| (x <<< (32 - n))) &&& mask32

def bigSigma0 (x : Nat) : Nat := rotr 2 x ^^^ rotr 13 x ^^^ rotr 22 x

def bigSigma1 (x : Nat) : Nat := rotr 6 x ^^^ rotr 11 x ^^^ rotr 25 x

def smallSigma0 (x : Nat) : Nat := rotr 7 x ^^^ rotr 18 x ^^^ (x >>> 3)

def smallSigma1 (x : Nat) : Nat := rotr 17 x ^^^ rotr 19 x ^^^ (x >>> 10)

def ch (x y z : Nat) : Nat := (x &&& y) ^^^ ((x ^^^ mask32) &&& z)

def maj (x y z : Nat) : Nat := (x &&& y) ^^^ (x &&& z) ^^^ (y &&& z)

/-- The 64 SHA-256 round constants (FIPS 180-4, in decimal). -/
def K : List Nat :=
  [1116352408, 1899447441, 3049323471, 3921009573, 961987163,
   1508970993, 2453635748, 2870763221, 3624381080, 310598401,
   607225278, 1426881987, 1925078388, 2162078206, 2614888103,
   3248222580, 3835390401, 4022224774, 264347078, 604807628,
   770255983, 1249150122, 1555081692, 1996064986, 2554220882,
   2821834349, 2952996808, 3210313671, 3336571891, 3584528711,
   113926993, 338241895, 666307205, 773529912, 1294757372,
   1396182291, 1695183700, 1986661051, 2177026350, 2456956037,
   2730485921, 2820302411, 3259730800, 3345764771, 3516065817,
   3600352804, 4094571909, 275423344, 430227734, 506948616,
   659060556, 883997877, 958139571, 1322822218, 1537002063,
   1747873779, 1955562222, 2024104815, 2227730452, 2361852424,
   2428436474, 2756734187, 3204031479, 3329325298]

/-- The initial SHA-256 hash state (FIPS 180-4, in decimal). -/
def H0 : List Nat :=
  [1779033703, 3144134277, 1013904242, 2773480762,
   1359893119, 2600822924, 528734635, 1541459225]

/-- `k` bytes of `n`, big-endian. -/
def beBytes : Nat → Nat → List Nat
  | 0, _ => []
  | k + 1, n => beBytes k (n / 256) ++ [n % 256]

/-- SHA-256 padding for a message of `len` bytes: `0x80`, zeros to 56 mod 64,
then the bit length as 8 big-endian bytes. -/
def padding (len : Nat) : List Nat :=
  128 :: List.replicate ((119 - len % 64) % 64) 0 ++ beBytes 8 (8 * len)

/-- Group consecutive 4-byte runs into big-endian 32-bit words. -/
def toWords : List Nat → List Nat
  | a :: b :: c :: d :: rest =>
      (((a * 256 + b) * 256 + c) * 256 + d) :: toWords rest
  | _ => []

/-- Extend the 16 block words by `fuel` more schedule words. -/
def scheduleAux : Nat → List Nat → List Nat
  | 0, ws => ws
  | n + 1, ws =>
      let t := add32
        (add32 (smallSigma1 (ws.getD (ws.length - 2) 0)) (ws.getD (ws.length - 7) 0))
        (add32 (smallSigma0 (ws.getD (ws.length - 15) 0)) (ws.getD (ws.length - 16) 0))
      scheduleAux n (ws ++ [t])

/-- One compression round on the 8-word working state. -/
def round (st : List Nat) (k w : Nat) : List Nat :=
  match st with
  | [a, b, c, d, e, f, g, h] =>
      let t1 := add32 h (add32 (bigSigma1 e) (add32 (ch e f g) (add32 k w)))
      let t2 := add32 (bigSigma0 a) (maj a b c)
      [add32 t1 t2, a, b, c, add32 d t1, e, f, g]
  | other => other

/-- Run the 64 rounds over the paired constants and schedule words. -/
def rounds : List (Nat × Nat) → List Nat → List Nat
  | [], st => st
  | (k, w) :: rest, st => rounds rest (round st k w)

/-- Compress one 64-byte block into the hash state. -/
def compress (h : List Nat) (block : List Nat) : List Nat :=
  let ws := scheduleAux 48 (toWords block)
  let st := rounds (K.zip ws) h
  (h.zip st).map (fun p => add32 p.1 p.2)

/-- Fold `compress` over the 64-byte blocks of `msg` (`fuel` bounds the
recursion; any `fuel ≥ msg.length` processes every block). -/
def processBlocks : Nat → List Nat → List Nat → List Nat
  | 0, h, _ => h
  | fuel + 1, h, msg =>
      match msg with
      | [] => h
      | _ :: _ => processBlocks fuel (compress h (msg.take 64)) (msg.drop 64)

/-- SHA-256 of a byte string, as its 32-byte digest. -/
def sha256 (msg : Bytes) : Fingerprint :=
  let padded := msg ++ padding msg.length
  ((processBlocks padded.length H0 padded).map (beBytes 4)).flatten

end Sha256

export Sha256 (sha256)

namespace Fingerprint

/-- One lowercase hex digit character for a value below 16. -/
def hexDigit (n : Nat) : Char :=
  if n < 10 then Char.ofNat (48 + n) else Char.ofNat (87 + n)

/-- The characters of the lowercase hex encoding of a byte string. -/
def toHexChars : List Nat → List Char
  | [] => []
  | b :: rest => hexDigit (b / 16) :: hexDigit (b % 16) :: toHexChars rest

/-- `Fingerprint::to_hex`: the lowercase hex encoding of the 32 bytes. -/
def toHex (f : Fingerprint) : String := String.mk (toHexChars f)

end Fingerprint

/-- `Digest(pub Fingerprint, pub usize)`: a fingerprint paired with the byte
length of the plaintext it identifies. -/
structure Digest where
  fingerprint : Fingerprint
  size : Nat
  deriving DecidableEq, Repr

/-- `bazel_protos::remote_execution::Digest`: the transport digest descriptor,
a hex hash string plus an `i64` byte size. -/
structure BazelDigest where
  hash : String
  size_bytes : Int
  deriving DecidableEq, Repr

/-- A Rust `usize as i64` cast (two's-complement reinterpretation of the
64-bit value). -/
def usizeAsI64 (n : Nat) : Int :=
  if n < 2 ^ 63 then (n : Int) else (n : Int) - 2 ^ 64

/-- `impl Into<bazel_protos::remote_execution::Digest> for Digest`: set `hash`
to the fingerprint's hex encoding and `size_bytes` to the size cast to `i64`. -/
def Digest.intoBazel (d : Digest) : BazelDigest :=
  { hash := Fingerprint.toHex d.fingerprint, size_bytes := usizeAsI64 d.size }

/-- Errors of the embedded LMDB engine that the store inspects. -/
inductive LmdbError where
  | KeyExist
  | NotFound
  | other (msg : String)
  deriving DecidableEq

/-- One LMDB named database: a flat fingerprint → bytes mapping. -/
abbrev Db := Fingerprint → Option Bytes

/-- The empty database. -/
def Db.empty : Db := fun _ => none

/-- Bind key `k` to `v`, leaving every other key unchanged. -/
def Db.insert (db : Db) (k : Fingerprint) (v : Bytes) : Db :=
  fun x => if x = k then some v else db x

/-- `txn.put(db, &key, &value, NO_OVERWRITE)` followed by `txn.commit()`:
fails with `KeyExist` iff the key is already bound, otherwise binds it. -/
def Db.putNoOverwrite (db : Db) (k : Fingerprint) (v : Bytes) : Except LmdbError Db :=
  match db k with
  | some _ => .error .KeyExist
  | none => .ok (Db.insert db k v)

/-- `txn.get(db, &key)`: yields the stored bytes, or `NotFound` when the key
is absent. -/
def Db.get (db : Db) (k : Fingerprint) : Except LmdbError Bytes :=
  match db k with
  | some v => .ok v
  | none => .error .NotFound

/-- `local::InnerStore`: one environment holding the two independent
namespaces, the `"files"` and `"directories"` databases. -/
structure ByteStore where
  file_store : Db
  directory_store : Db

/-- A freshly created store: both databases empty. -/
def ByteStore.empty : ByteStore :=
  { file_store := Db.empty, directory_store := Db.empty }

/-- `local::ByteStore::store_bytes`: fingerprint the bytes with SHA-256,
insert under `NO_OVERWRITE`; a fresh insert and a `KeyExist` failure both
resolve to the fingerprint, any other engine error becomes a `String` error.
Returns the updated database alongside the fingerprint. -/
def ByteStore.store_bytes (db : Db) (bytes : Bytes) : Except String (Fingerprint × Db) :=
  let fingerprint := sha256 bytes
  match db.putNoOverwrite fingerprint bytes with
  | .ok db2 => .ok (fingerprint, db2)
  | .error .KeyExist => .ok (fingerprint, db)
  | .error _ => .error "Error storing fingerprint"

/-- `local::ByteStore::load_bytes_with`: read the key in a read-only
transaction; present bytes are passed through the caller's transform,
`NotFound` becomes `Ok(None)`, any other engine error becomes a `String`
error. -/
def ByteStore.load_bytes_with {T : Type} (db : Db) (fingerprint : Fingerprint)
    (f : Bytes → T) : Except String (Option T) :=
  match db.get fingerprint with
  | .ok bytes => .ok (some (f bytes))
  | .error .NotFound => .ok none
  | .error _ => .error "Error loading fingerprint"

/-- `local::ByteStore::store_file_bytes`: store into the `"files"` namespace
and pair the fingerprint with the byte length. -/
def ByteStore.store_file_bytes (s : ByteStore) (bytes : Bytes) :
    Except String (Digest × ByteStore) :=
  let len := bytes.length
  match ByteStore.store_bytes s.file_store bytes with
  | .ok (fingerprint, db2) => .ok (⟨fingerprint, len⟩, { s with file_store := db2 })
  | .error e => .error e

/-- `local::ByteStore::load_file_bytes_with`: load from the `"files"`
namespace. -/
def ByteStore.load_file_bytes_with {T : Type} (s : ByteStore) (fingerprint : Fingerprint)
    (f : Bytes → T) : Except String (Option T) :=
  ByteStore.load_bytes_with s.file_store fingerprint f

/-- `local::ByteStore::load_directory_proto_bytes_with`: load from the
`"directories"` namespace. -/
def ByteStore.load_directory_proto_bytes_with {T : Type} (s : ByteStore)
    (fingerprint : Fingerprint) (f : Bytes → T) : Except String (Option T) :=
  ByteStore.load_bytes_with s.directory_store fingerprint f

/-- Modelled from the spec: a child file entry of a directory manifest
(`bazel_protos::remote_execution::FileNode`, defined outside this repository):
a name, the Digest of the file's content, and an executable bit. -/
structure FileNode where
  name : Bytes
  digest : Digest
  is_executable : Bool
  deriving DecidableEq

/-- Modelled from the spec: a child subdirectory entry of a directory manifest
(defined outside this repository): a name and the Digest of the child
manifest. -/
structure DirectoryNode where
  name : Bytes
  digest : Digest
  deriving DecidableEq

/-- Modelled from the spec: a directory manifest
(`bazel_protos::remote_execution::Directory`, defined outside this
repository): an ordered description of child file and subdirectory entries. -/
structure Directory where
  files : List FileNode
  directories : List DirectoryNode
  deriving DecidableEq

namespace Proto

/-! Modelled from the spec: the manifest type's canonical binary serialization
and its parse function, which fails explicitly on malformed input (the
protobuf machinery is outside this repository). The exact wire scheme is
immaterial to the store; what the spec requires is a canonical, injective
byte form with an explicit-failure parser, realised here by a self-delimiting
encoding. -/

/-- A natural number, self-delimited in unary: `n` ones then a zero. -/
def encNat (n : Nat) : List Nat :=
  List.replicate n 1 ++ [0]

/-- A list, as its encoded length followed by the encoded elements. -/
def encList {α : Type} (enc : α → List Nat) (xs : List α) : List Nat :=
  encNat xs.length ++ (xs.map enc).flatten

/-- A byte string, as a length-prefixed list of encoded bytes. -/
def encBytes (bs : Bytes) : List Nat :=
  encList encNat bs

/-- A file entry: name, digest fingerprint, digest size, executable bit. -/
def encFileNode (fn : FileNode) : List Nat :=
  encBytes fn.name ++ encBytes fn.digest.fingerprint ++ encNat fn.digest.size
    ++ encNat (cond fn.is_executable 1 0)

/-- A subdirectory entry: name and digest. -/
def encDirectoryNode (dn : DirectoryNode) : List Nat :=
  encBytes dn.name ++ encBytes dn.digest.fingerprint ++ encNat dn.digest.size

/-- The canonical serialized form of a manifest. -/
def encDirectory (d : Directory) : List Nat :=
  encList encFileNode d.files ++ encList encDirectoryNode d.directories

/-- Decode one unary natural, returning it and the remaining input. -/
def decNat : List Nat → Option (Nat × List Nat)
  | [] => none
  | b :: rest =>
      if b = 0 then some (0, rest)
      else
        match decNat rest with
        | some (n, r) => some (n + 1, r)
        | none => none

/-- Decode exactly `n` elements with `dec`. -/
def decListN {α : Type} (dec : List Nat → Option (α × List Nat)) :
    Nat → List Nat → Option (List α × List Nat)
  | 0, l => some ([], l)
  | n + 1, l =>
      match dec l with
      | some (a, r) =>
          match decListN dec n r with
          | some (as, r2) => some (a :: as, r2)
          | none => none
      | none => none

/-- Decode a length-prefixed list. -/
def decList {α : Type} (dec : List Nat → Option (α × List Nat))
    (l : List Nat) : Option (List α × List Nat) :=
  match decNat l with
  | some (n, r) => decListN dec n r
  | none => none

/-- Decode a byte string. -/
def decBytes (l : List Nat) : Option (Bytes × List Nat) :=
  decList decNat l

/-- Decode a boolean encoded as 0 or 1; any other value is malformed. -/
def decBool (l : List Nat) : Option (Bool × List Nat) :=
  match decNat l with
  | some (0, r) => some (false, r)
  | some (1, r) => some (true, r)
  | _ => none

/-- Decode one file entry. -/
def decFileNode (l : List Nat) : Option (FileNode × List Nat) :=
  match decBytes l with
  | some (name, r1) =>
      match decBytes r1 with
      | some (fp, r2) =>
          match decNat r2 with
          | some (sz, r3) =>
              match decBool r3 with
              | some (ex, r4) => some (⟨name, ⟨fp, sz⟩, ex⟩, r4)
              | none => none
          | none => none
      | none => none
  | none => none

/-- Decode one subdirectory entry. -/
def decDirectoryNode (l : List Nat) : Option (DirectoryNode × List Nat) :=
  match decBytes l with
  | some (name, r1) =>
      match decBytes r1 with
      | some (fp, r2) =>
          match decNat r2 with
          | some (sz, r3) => some (⟨name, ⟨fp, sz⟩⟩, r3)
          | none => none
      | none => none
  | none => none

/-- Decode a manifest. -/
def decDirectory (l : List Nat) : Option (Directory × List Nat) :=
  match decList decFileNode l with
  | some (fs, r1) =>
      match decList decDirectoryNode r1 with
      | some (ds, r2) => some (⟨fs, ds⟩, r2)
      | none => none
  | none => none

end Proto

/-- `Directory::write_to_bytes`: canonical serialization (total in the
model, mirroring that serializing an in-memory manifest does not fail in
practice; the store surfaces a failure as an error either way). -/
def Directory.write_to_bytes (d : Directory) : Except String (List Nat) :=
  .ok (Proto.encDirectory d)

/-- `Directory::merge_from_bytes`: parse stored bytes back into a manifest,
failing explicitly on malformed input (including trailing garbage). -/
def Directory.merge_from_bytes (bytes : List Nat) : Except String Directory :=
  match Proto.decDirectory bytes with
  | some (d, []) => .ok d
  | _ => .error "invalid Directory bytes"

/-- `local::ByteStore::record_directory`: serialize the manifest, then store
the bytes into the `"directories"` namespace and pair the fingerprint with
the serialized length. -/
def ByteStore.record_directory (s : ByteStore) (directory : Directory) :
    Except String (Digest × ByteStore) :=
  match directory.write_to_bytes with
  | .error e => .error ("Error serializing directory proto: " ++ e)
  | .ok bytes =>
      let len := bytes.length
      match ByteStore.store_bytes s.directory_store bytes with
      | .ok (fingerprint, db2) => .ok (⟨fingerprint, len⟩, { s with directory_store := db2 })
      | .error e => .error e

/-- The outcome of an operation whose transform may abort the process: the
future resolves `ok`, resolves `err`, or the unit of work panics. -/
inductive PResult (α : Type) where
  | ok : α → PResult α
  | err : String → PResult α
  | panicked : String → PResult α
  deriving DecidableEq

/-- `Store::load_directory`: load from the `"directories"` namespace with a
transform that parses the bytes and calls `.expect(...)` — a parse failure
aborts the unit of work (modelled as `panicked`), it is never folded into
`None`. -/
def Store.load_directory (s : ByteStore) (fingerprint : Fingerprint) :
    PResult (Option Directory) :=
  match ByteStore.load_bytes_with s.directory_store fingerprint
      Directory.merge_from_bytes with
  | .error e => .err e
  | .ok none => .ok none
  | .ok (some (.ok d)) => .ok (some d)
  | .ok (some (.error _)) => .panicked "LMDB corruption: Directory bytes were not valid"

/-! ### Helper lemmas about the write path -/

/-- When the computed key is free, `store_bytes` inserts and resolves to the
fingerprint. -/
theorem store_bytes_absent {db : Db} {b : Bytes} (h : db (sha256 b) = none) :
    ByteStore.store_bytes db b = .ok (sha256 b, Db.insert db (sha256 b) b) := by
  simp [ByteStore.store_bytes, Db.putNoOverwrite, h]

/-- When the computed key is already bound, the `KeyExist` failure of the
`NO_OVERWRITE` put is folded into success and the database is unchanged. -/
theorem store_bytes_present {db : Db} {b v : Bytes} (h : db (sha256 b) = some v) :
    ByteStore.store_bytes db b = .ok (sha256 b, db) := by
  simp [ByteStore.store_bytes, Db.putNoOverwrite, h]

/-- Reading a bound key through `load_bytes_with` applies the transform. -/
theorem load_bytes_with_present {T : Type} {db : Db} {fp : Fingerprint} {v : Bytes}
    (f : Bytes → T) (h : db fp = some v) :
    ByteStore.load_bytes_with db fp f = .ok (some (f v)) := by
  simp [ByteStore.load_bytes_with, Db.get, h]

/-- Reading an unbound key through `load_bytes_with` maps `NotFound` to
`Ok(None)`. -/
theorem load_bytes_with_absent {T : Type} {db : Db} {fp : Fingerprint}
    (f : Bytes → T) (h : db fp = none) :
    ByteStore.load_bytes_with db fp f = .ok none := by
  simp [ByteStore.load_bytes_with, Db.get, h]

/-- An inserted binding is read back. -/
theorem insert_same {db : Db} {k : Fingerprint} {v : Bytes} :
    Db.insert db k v k = some v := by
  simp [Db.insert]

/-- C1: for every byte sequence `b`, `store_file_bytes b` resolves successfully
to `Digest (sha256 b) b.length`: the fingerprint component is the SHA-256 hash
the store itself computes from `b`, and the size component is `b`'s length. -/
theorem store_file_bytes_content_addressed (s : ByteStore) (b : Bytes) :
    ∃ s2 : ByteStore, s.store_file_bytes b = .ok (⟨sha256 b, b.length⟩, s2) := by
  cases h : s.file_store (sha256 b) with
  | none =>
      exact ⟨{ s with file_store := Db.insert s.file_store (sha256 b) b },
        by simp [ByteStore.store_file_bytes, store_bytes_absent h]⟩
  | some v =>
      exact ⟨s, by simp [ByteStore.store_file_bytes, store_bytes_present h]⟩

/-- C2: if key `k` already holds `v1` and a store operation computes the same
key `k` for bytes `v2`, the database is left holding `v1` at `k` and the call
still resolves successfully to the fingerprint `k`: the key-exists outcome is
folded into a successful idempotent write. -/
theorem store_bytes_collision_preserves_first (db : Db) (k : Fingerprint)
    (v1 v2 : Bytes) (hk : db k = some v1) (hh : sha256 v2 = k) :
    ∃ db2 : Db, ByteStore.store_bytes db v2 = .ok (k, db2) ∧ db2 k = some v1 := by
  subst hh
  exact ⟨db, store_bytes_present hk, hk⟩

/-- Witness for C2 at a concrete collision: the key `sha256 []` pre-holds
`[1, 2, 3]`, then `[]` is stored to the same key. -/
theorem store_bytes_collision_preserves_first_witness :
    ∃ db2 : Db,
      ByteStore.store_bytes (Db.insert Db.empty (sha256 []) [1, 2, 3]) []
          = .ok (sha256 [], db2) ∧
      db2 (sha256 []) = some [1, 2, 3] :=
  store_bytes_collision_preserves_first _ _ _ _ insert_same rfl

/-- C4: storing `b` twice yields the identical Digest `(sha256 b, len b)` both
times, the second call succeeding, and — provided the computed key is either
free or already content-consistent, as every state produced by the store's own
writes is — a subsequent load of that fingerprint with the identity transform
returns `b`. -/
theorem store_file_bytes_idempotent (s : ByteStore) (b : Bytes)
    (hinv : s.file_store (sha256 b) = none ∨ s.file_store (sha256 b) = some b) :
    ∃ s1 s2 : ByteStore,
      s.store_file_bytes b = .ok (⟨sha256 b, b.length⟩, s1) ∧
      s1.store_file_bytes b = .ok (⟨sha256 b, b.length⟩, s2) ∧
      s2.load_file_bytes_with (sha256 b) (fun x => x) = .ok (some b) := by
  rcases hinv with h | h
  · exact ⟨{ s with file_store := Db.insert s.file_store (sha256 b) b },
      { s with file_store := Db.insert s.file_store (sha256 b) b },
      by simp [ByteStore.store_file_bytes, store_bytes_absent h],
      by simp [ByteStore.store_file_bytes, store_bytes_present insert_same],
      by simp [ByteStore.load_file_bytes_with, load_bytes_with_present _ insert_same]⟩
  · exact ⟨s, s,
      by simp [ByteStore.store_file_bytes, store_bytes_present h],
      by simp [ByteStore.store_file_bytes, store_bytes_present h],
      by simp [ByteStore.load_file_bytes_with, load_bytes_with_present _ h]⟩

/-- Witness for C4: a fresh store and the empty byte sequence. -/
theorem store_file_bytes_idempotent_witness :
    ∃ s1 s2 : ByteStore,
      ByteStore.store_file_bytes ByteStore.empty [] = .ok (⟨sha256 [], 0⟩, s1) ∧
      s1.store_file_bytes [] = .ok (⟨sha256 [], 0⟩, s2) ∧
      s2.load_file_bytes_with (sha256 []) (fun x => x) = .ok (some []) :=
  store_file_bytes_idempotent ByteStore.empty [] (Or.inl rfl)

/-- C6: loading a fingerprint never written resolves to `Ok none` — the
ordinary absent outcome, not an error — in both namespaces, for the file
loader, the directory-proto-bytes loader, and the directory-manifest loader. -/
theorem load_never_written_is_absent {T U : Type} (s : ByteStore) (fp : Fingerprint)
    (f : Bytes → T) (g : Bytes → U)
    (hf : s.file_store fp = none) (hd : s.directory_store fp = none) :
    s.load_file_bytes_with fp f = .ok none ∧
    s.load_directory_proto_bytes_with fp g = .ok none ∧
    Store.load_directory s fp = .ok none := by
  refine ⟨load_bytes_with_absent f hf, load_bytes_with_absent g hd, ?_⟩
  simp [Store.load_directory, load_bytes_with_absent _ hd]

/-- Witness for C6: a fresh store and an arbitrary fingerprint. -/
theorem load_never_written_is_absent_witness :
    ByteStore.load_file_bytes_with ByteStore.empty [0] (fun x => x) = .ok none ∧
    ByteStore.load_directory_proto_bytes_with ByteStore.empty [0] (fun x => x) = .ok none ∧
    Store.load_directory ByteStore.empty [0] = .ok none :=
  load_never_written_is_absent ByteStore.empty [0] _ _ rfl rfl

/-- C7: after storing `b` as a file, loading the resulting fingerprint through
the directory-side loaders returns the absent result, not the file bytes: the
two namespaces are disjoint key spaces (assuming the directories namespace did
not independently hold that key). -/
theorem file_bytes_invisible_to_directory_loader (s : ByteStore) (b : Bytes)
    (hd : s.directory_store (sha256 b) = none) :
    ∃ s2 : ByteStore,
      s.store_file_bytes b = .ok (⟨sha256 b, b.length⟩, s2) ∧
      s2.load_directory_proto_bytes_with (sha256 b) (fun x => x) = .ok none ∧
      Store.load_directory s2 (sha256 b) = .ok none := by
  cases h : s.file_store (sha256 b) with
  | none =>
      refine ⟨{ s with file_store := Db.insert s.file_store (sha256 b) b },
        by simp [ByteStore.store_file_bytes, store_bytes_absent h], ?_, ?_⟩
      · simp [ByteStore.load_directory_proto_bytes_with, load_bytes_with_absent _ hd]
      · simp [Store.load_directory, load_bytes_with_absent _ hd]
  | some v =>
      refine ⟨s,
        by simp [ByteStore.store_file_bytes, store_bytes_present h], ?_, ?_⟩
      · simp [ByteStore.load_directory_proto_bytes_with, load_bytes_with_absent _ hd]
      · simp [Store.load_directory, load_bytes_with_absent _ hd]

/-- Witness for C7: a fresh store and the one-byte sequence `[7]`. -/
theorem file_bytes_invisible_to_directory_loader_witness :
    ∃ s2 : ByteStore,
      ByteStore.store_file_bytes ByteStore.empty [7] = .ok (⟨sha256 [7], 1⟩, s2) ∧
      s2.load_directory_proto_bytes_with (sha256 [7]) (fun x => x) = .ok none ∧
      Store.load_directory s2 (sha256 [7]) = .ok none :=
  file_bytes_invisible_to_directory_loader ByteStore.empty [7] rfl

/-- C10: on a write collision the returned Digest reflects the newly supplied
bytes, not the bytes retained under the key: with `v1` of a different length
already under `sha256 b`, `store_file_bytes b` still returns
`Digest (sha256 b) b.length` and leaves the store unchanged, while a load of
that fingerprint observes `v1`, whose length disagrees with the returned size
component. -/
theorem store_file_bytes_collision_digest_reflects_new_bytes
    (s : ByteStore) (b v1 : Bytes)
    (hk : s.file_store (sha256 b) = some v1) (hlen : v1.length ≠ b.length) :
    s.store_file_bytes b = .ok (⟨sha256 b, b.length⟩, s) ∧
    s.load_file_bytes_with (sha256 b) (fun x => x) = .ok (some v1) ∧
    (⟨sha256 b, b.length⟩ : Digest).size ≠ v1.length := by
  refine ⟨?_, ?_, ?_⟩
  · simp [ByteStore.store_file_bytes, store_bytes_present hk]
  · simp [ByteStore.load_file_bytes_with, load_bytes_with_present _ hk]
  · exact Ne.symm hlen

/-- Witness for C10: the key `sha256 [7]` pre-holds the three-byte value
`[1, 2, 3]`, then the one-byte value `[7]` is stored. -/
theorem store_file_bytes_collision_digest_reflects_new_bytes_witness :
    ByteStore.store_file_bytes
        ⟨Db.insert Db.empty (sha256 [7]) [1, 2, 3], Db.empty⟩ [7]
      = .ok (⟨sha256 [7], 1⟩, ⟨Db.insert Db.empty (sha256 [7]) [1, 2, 3], Db.empty⟩) ∧
    ByteStore.load_file_bytes_with
        ⟨Db.insert Db.empty (sha256 [7]) [1, 2, 3], Db.empty⟩ (sha256 [7]) (fun x => x)
      = .ok (some [1, 2, 3]) ∧
    (⟨sha256 [7], 1⟩ : Digest).size ≠ [1, 2, 3].length :=
  store_file_bytes_collision_digest_reflects_new_bytes _ [7] [1, 2, 3]
    (show Db.insert Db.empty (sha256 [7]) [1, 2, 3] (sha256 [7]) = some [1, 2, 3]
      from insert_same) (by decide)

/-- C3: when the directories namespace holds bytes that fail to parse as a
canonical manifest, `load_directory` is fatal for the calling operation — the
transform's `.expect` aborts the unit of work — and in particular it never
resolves to the absent `none` outcome. -/
theorem load_directory_malformed_is_fatal (s : ByteStore) (fp : Fingerprint)
    (bytes : Bytes) (e : String)
    (hget : s.directory_store fp = some bytes)
    (hparse : Directory.merge_from_bytes bytes = .error e) :
    Store.load_directory s fp
        = .panicked "LMDB corruption: Directory bytes were not valid" ∧
    Store.load_directory s fp ≠ .ok none := by
  have h1 : Store.load_directory s fp
      = .panicked "LMDB corruption: Directory bytes were not valid" := by
    simp [Store.load_directory,
      load_bytes_with_present Directory.merge_from_bytes hget, hparse]
  exact ⟨h1, by simp [h1]⟩

/-- Witness for C3: the directories namespace holds the malformed byte string
`[1]` under the key `[0]`. -/
theorem load_directory_malformed_is_fatal_witness :
    Store.load_directory ⟨Db.empty, Db.insert Db.empty [0] [1]⟩ [0]
        = .panicked "LMDB corruption: Directory bytes were not valid" ∧
    Store.load_directory ⟨Db.empty, Db.insert Db.empty [0] [1]⟩ [0] ≠ .ok none :=
  load_directory_malformed_is_fatal _ [0] [1] "invalid Directory bytes"
    (show Db.insert Db.empty [0] [1] [0] = some [1] from insert_same) rfl

/-! ### Injectivity of the hex encoding and the `usize as i64` cast -/

/-- `hexDigit` is injective on the sixteen digit values. -/
theorem hexDigit_inj_fin :
    ∀ x y : Fin 16, Fingerprint.hexDigit x.val = Fingerprint.hexDigit y.val → x = y := by
  decide

/-- `hexDigit` is injective below 16. -/
theorem hexDigit_inj {x y : Nat} (hx : x < 16) (hy : y < 16)
    (h : Fingerprint.hexDigit x = Fingerprint.hexDigit y) : x = y := by
  simpa using congrArg Fin.val (hexDigit_inj_fin ⟨x, hx⟩ ⟨y, hy⟩ h)

/-- The hex encoding is injective on byte-valued strings. -/
theorem toHexChars_inj : ∀ a b : List Nat, (∀ x ∈ a, x < 256) → (∀ x ∈ b, x < 256) →
    Fingerprint.toHexChars a = Fingerprint.toHexChars b → a = b := by
  intro a
  induction a with
  | nil =>
      intro b _ _ h
      cases b with
      | nil => rfl
      | cons y ys => simp [Fingerprint.toHexChars] at h
  | cons x xs ih =>
      intro b ha hb h
      cases b with
      | nil => simp [Fingerprint.toHexChars] at h
      | cons y ys =>
          simp only [Fingerprint.toHexChars, List.cons.injEq] at h
          obtain ⟨h1, h2, h3⟩ := h
          have hx : x < 256 := ha x (List.mem_cons_self x xs)
          have hy : y < 256 := hb y (List.mem_cons_self y ys)
          have e1 : x / 16 = y / 16 := hexDigit_inj (by omega) (by omega) h1
          have e2 : x % 16 = y % 16 := hexDigit_inj (by omega) (by omega) h2
          have exs : xs = ys := ih ys (fun z hz => ha z (List.mem_cons_of_mem _ hz))
            (fun z hz => hb z (List.mem_cons_of_mem _ hz)) h3
          have exy : x = y := by omega
          rw [exy, exs]

/-- The `usize as i64` cast is injective on 64-bit values. -/
theorem usizeAsI64_inj {m n : Nat} (hm : m < 2 ^ 64) (hn : n < 2 ^ 64)
    (h : usizeAsI64 m = usizeAsI64 n) : m = n := by
  unfold usizeAsI64 at h
  split_ifs at h <;> omega

/-- C9: the Digest → transport-descriptor conversion sets the descriptor's
`hash` field to the hex encoding of the fingerprint and its `size_bytes` field
to the Digest's size (cast to `i64`), and on well-formed Digests — byte-valued
fingerprints and `usize` sizes — the conversion is injective. -/
theorem digest_into_bazel_fields_and_injective (d1 d2 : Digest)
    (h1b : ∀ x ∈ d1.fingerprint, x < 256) (h2b : ∀ x ∈ d2.fingerprint, x < 256)
    (h1s : d1.size < 2 ^ 64) (h2s : d2.size < 2 ^ 64) :
    d1.intoBazel.hash = Fingerprint.toHex d1.fingerprint ∧
    d1.intoBazel.size_bytes = usizeAsI64 d1.size ∧
    (d1.intoBazel = d2.intoBazel → d1 = d2) := by
  refine ⟨rfl, rfl, fun h => ?_⟩
  have hh : Fingerprint.toHex d1.fingerprint = Fingerprint.toHex d2.fingerprint :=
    congrArg BazelDigest.hash h
  have hs : usizeAsI64 d1.size = usizeAsI64 d2.size :=
    congrArg BazelDigest.size_bytes h
  have hfp : d1.fingerprint = d2.fingerprint := by
    refine toHexChars_inj _ _ h1b h2b ?_
    simpa [Fingerprint.toHex] using congrArg String.data hh
  have hsz : d1.size = d2.size := usizeAsI64_inj h1s h2s hs
  cases d1
  cases d2
  simp_all

/-- Witness for C9 at a concrete two-byte fingerprint. -/
theorem digest_into_bazel_fields_and_injective_witness :
    (Digest.mk [171, 205] 300).intoBazel.hash = Fingerprint.toHex [171, 205] ∧
    (Digest.mk [171, 205] 300).intoBazel.size_bytes = usizeAsI64 300 ∧
    ((Digest.mk [171, 205] 300).intoBazel = (Digest.mk [171, 205] 300).intoBazel →
      Digest.mk [171, 205] 300 = Digest.mk [171, 205] 300) :=
  digest_into_bazel_fields_and_injective _ _ (by decide) (by decide)
    (by decide) (by decide)

/-! ### The serializer/parser round-trip for canonical manifests -/

namespace Proto

/-- Decoding inverts the unary encoding at any continuation. -/
theorem decNat_encNat (n : Nat) (r : List Nat) :
    decNat (encNat n ++ r) = some (n, r) := by
  induction n with
  | zero => simp [encNat, decNat]
  | succ m ih =>
      have h : encNat (m + 1) ++ r = 1 :: (encNat m ++ r) := by
        simp [encNat, List.replicate_succ]
      rw [h]
      simp [decNat, ih]

/-- Decoding a counted run of encoded elements inverts the element-wise
encoding. -/
theorem decListN_enc {α : Type} (dec : List Nat → Option (α × List Nat))
    (enc : α → List Nat) (H : ∀ a r, dec (enc a ++ r) = some (a, r)) :
    ∀ (xs : List α) (r : List Nat),
      decListN dec xs.length ((xs.map enc).flatten ++ r) = some (xs, r) := by
  intro xs
  induction xs with
  | nil => intro r; simp [decListN]
  | cons a as ih =>
      intro r
      have h : ((a :: as).map enc).flatten ++ r = enc a ++ ((as.map enc).flatten ++ r) := by
        simp
      rw [List.length_cons, h]
      simp [decListN, H, ih]

/-- Decoding inverts the length-prefixed list encoding. -/
theorem decList_enc {α : Type} (dec : List Nat → Option (α × List Nat))
    (enc : α → List Nat) (H : ∀ a r, dec (enc a ++ r) = some (a, r))
    (xs : List α) (r : List Nat) :
    decList dec (encList enc xs ++ r) = some (xs, r) := by
  have h : encList enc xs ++ r = encNat xs.length ++ ((xs.map enc).flatten ++ r) := by
    simp [encList]
  rw [h]
  simp [decList, decNat_encNat, decListN_enc dec enc H]

/-- Decoding inverts the byte-string encoding. -/
theorem decBytes_enc (bs : Bytes) (r : List Nat) :
    decBytes (encBytes bs ++ r) = some (bs, r) :=
  decList_enc decNat encNat decNat_encNat bs r

/-- Decoding inverts the boolean encoding. -/
theorem decBool_enc (b : Bool) (r : List Nat) :
    decBool (encNat (cond b 1 0) ++ r) = some (b, r) := by
  cases b <;> simp [decBool, decNat_encNat]

/-- Decoding inverts the file-entry encoding. -/
theorem decFileNode_enc (fn : FileNode) (r : List Nat) :
    decFileNode (encFileNode fn ++ r) = some (fn, r) := by
  have h : encFileNode fn ++ r
      = encBytes fn.name ++ (encBytes fn.digest.fingerprint
        ++ (encNat fn.digest.size ++ (encNat (cond fn.is_executable 1 0) ++ r))) := by
    simp [encFileNode, List.append_assoc]
  rw [h]
  simp [decFileNode, decBytes_enc, decNat_encNat, decBool_enc]

/-- Decoding inverts the subdirectory-entry encoding. -/
theorem decDirectoryNode_enc (dn : DirectoryNode) (r : List Nat) :
    decDirectoryNode (encDirectoryNode dn ++ r) = some (dn, r) := by
  have h : encDirectoryNode dn ++ r
      = encBytes dn.name ++ (encBytes dn.digest.fingerprint
        ++ (encNat dn.digest.size ++ r)) := by
    simp [encDirectoryNode, List.append_assoc]
  rw [h]
  simp [decDirectoryNode, decBytes_enc, decNat_encNat]

/-- Decoding inverts the manifest encoding. -/
theorem decDirectory_enc (d : Directory) (r : List Nat) :
    decDirectory (encDirectory d ++ r) = some (d, r) := by
  have h : encDirectory d ++ r
      = encList encFileNode d.files ++ (encList encDirectoryNode d.directories ++ r) := by
    simp [encDirectory, List.append_assoc]
  rw [h]
  simp [decDirectory, decList_enc _ _ decFileNode_enc, decList_enc _ _ decDirectoryNode_enc]

end Proto

/-- Parsing inverts the canonical serialization of a manifest. -/
theorem merge_from_bytes_enc (d : Directory) :
    Directory.merge_from_bytes (Proto.encDirectory d) = .ok d := by
  have h := Proto.decDirectory_enc d []
  rw [List.append_nil] at h
  simp [Directory.merge_from_bytes, h]

/-- C5: recording a canonical manifest `m` succeeds with a Digest built from
the SHA-256 and length of `m`'s canonical serialization, and loading that
Digest's fingerprint through the manifest loader returns a manifest
structurally equal to `m` (assuming the directories namespace did not already
hold a different value at that key, as in any state the store's own writes
produce). -/
theorem record_directory_roundtrip (s : ByteStore) (m : Directory)
    (hinv : s.directory_store (sha256 (Proto.encDirectory m)) = none ∨
      s.directory_store (sha256 (Proto.encDirectory m)) = some (Proto.encDirectory m)) :
    ∃ (d : Digest) (s2 : ByteStore),
      s.record_directory m = .ok (d, s2) ∧
      d = ⟨sha256 (Proto.encDirectory m), (Proto.encDirectory m).length⟩ ∧
      Store.load_directory s2 d.fingerprint = .ok (some m) := by
  rcases hinv with h | h
  · exact ⟨⟨sha256 (Proto.encDirectory m), (Proto.encDirectory m).length⟩,
      { s with directory_store :=
        Db.insert s.directory_store (sha256 (Proto.encDirectory m)) (Proto.encDirectory m) },
      by simp [ByteStore.record_directory, Directory.write_to_bytes, store_bytes_absent h],
      rfl,
      by simp [Store.load_directory, load_bytes_with_present _ insert_same,
        merge_from_bytes_enc]⟩
  · exact ⟨⟨sha256 (Proto.encDirectory m), (Proto.encDirectory m).length⟩, s,
      by simp [ByteStore.record_directory, Directory.write_to_bytes, store_bytes_present h],
      rfl,
      by simp [Store.load_directory, load_bytes_with_present _ h, merge_from_bytes_enc]⟩

/-- Witness for C5: a fresh store and the empty manifest. -/
theorem record_directory_roundtrip_witness :
    ∃ (d : Digest) (s2 : ByteStore),
      ByteStore.record_directory ByteStore.empty ⟨[], []⟩ = .ok (d, s2) ∧
      d = ⟨sha256 (Proto.encDirectory ⟨[], []⟩), (Proto.encDirectory ⟨[], []⟩).length⟩ ∧
      Store.load_directory s2 d.fingerprint = .ok (some ⟨[], []⟩) :=
  record_directory_roundtrip ByteStore.empty ⟨[], []⟩ (Or.inl rfl)

/-- The UTF-8 bytes of the text "European Burmese" (`tests::STR`). -/
def euBytes : Bytes :=
  [69, 117, 114, 111, 112, 101, 97, 110, 32, 66, 117, 114, 109, 101, 115, 101]

/-- C8 counterexample: the byte sequence of the text "European Burmese" is 16
bytes long, not 17, and storing it in a fresh store yields a Digest whose size
component is 16, so the claimed Digest with size 17 is not the result. -/
theorem scenario_digest_size_counterexample :
    euBytes.length ≠ 17 ∧
    Option.map (fun p => p.1) (ByteStore.store_file_bytes ByteStore.empty euBytes).toOption
      ≠ some ⟨sha256 euBytes, 17⟩ := by
  refine ⟨by decide, by decide⟩

/-- C8 (amended): storing the 16-byte sequence of the text "European Burmese"
yields the Digest whose fingerprint is the SHA-256 of that exact byte sequence
(hex 693d8db7b05e99c6b7a7c0616456039d89c555029026936248085193559a0b5d) and
whose size component is 16. -/
theorem scenario_digest_european_burmese :
    euBytes.length = 16 ∧
    Option.map (fun p => p.1) (ByteStore.store_file_bytes ByteStore.empty euBytes).toOption
      = some ⟨sha256 euBytes, 16⟩ ∧
    Fingerprint.toHex (sha256 euBytes)
      = "693d8db7b05e99c6b7a7c0616456039d89c555029026936248085193559a0b5d" := by
  refine ⟨rfl, by decide, by decide⟩
